import Mathlib

/-!
Verification of the fetch orchestration engine of the Concurrent-Web-Scraper
repository, as a shallow embedding of its Go source.

The embedding covers:
* `Scraper.Fetch` — the retry loop of `HTTPScraper.Fetch` (internal/scraper/http.go),
  with the single network attempt abstracted as an oracle `Nat → AttemptOutcome`
  (which outcome the n-th attempt observes) and the process-wide random source
  abstracted as a stream of draws `Nat → Nat` (`rand.Intn n` consumes one draw and
  reduces it modulo `n`).  Ghost fields (`sleeps`, `identities`) record the delay
  slept before each attempt and the proxy identity in force at each attempt.
* `Proxy.GetProxyURL` — proxy selection (internal/proxy/proxy.go).
* `Extraction.extractData` — selector/regex extraction (internal/extraction/extraction.go),
  with the HTML matching engines (goquery selectors, regexp) abstracted as oracles.
* `Worker` — small-step transition systems for the worker pool
  (internal/worker, src/unnamed/part_001).  `Step` is an ungated
  over-approximation (no rate limiter) used for safety properties; `GStep`
  refines it with the shared `time.Ticker` rate gate the workers block on
  (`<-rateLimiter.C`) and with `Start`'s `defer rateLimiter.Stop()`, which
  stops that ticker as soon as `Start` returns and thereby wedges every
  worker at the gate.
* `PoolStart.start` — `Pool.Start`'s creation of the `time.Ticker` rate limiter,
  with `time.NewTicker`'s documented panic on non-positive intervals.
-/

namespace Proxy

/-- The proxy configuration (internal/config/config.go, `ProxyConfig`). -/
structure ProxyConfig where
  enabled : Bool
  rotate : Bool
  list : List String
  authUser : String
  authPass : String
deriving DecidableEq, Repr

/-- A parsed proxy URL.  `url.Parse` is kept structured: the selected proxy
string together with the optional credentials that `GetProxyURL` attaches
(parse failures of configured proxy strings are not modelled). -/
structure ProxyURL where
  base : String
  auth : Option (String × String)
deriving DecidableEq, Repr

/-- `Manager.GetProxyURL` (internal/proxy/proxy.go): returns `none` when proxies
are disabled or the list is empty; otherwise selects `List[0]`, except that with
`Rotate` and more than one entry it selects `List[rand.Intn(len(List))]` —
`draw` is the raw value consumed from the random stream. -/
def GetProxyURL (cfg : ProxyConfig) (draw : Nat) : Option ProxyURL :=
  if cfg.enabled = false ∨ cfg.list.isEmpty then none
  else
    let proxyStr :=
      if cfg.rotate = true ∧ 1 < cfg.list.length then
        cfg.list.getD (draw % cfg.list.length) ""
      else cfg.list.headD ""
    some { base := proxyStr
           auth := if cfg.authUser ≠ "" ∧ cfg.authPass ≠ "" then
                     some (cfg.authUser, cfg.authPass)
                   else none }

end Proxy

namespace Scraper

/-- The failure taxonomy of a single fetch attempt: transport errors
(`http.NewRequest` / `client.Do`), non-200 status codes, the client timeout,
and decode errors (`goquery.NewDocumentFromReader` / `doc.Html`). -/
inductive FailureReason where
  | transportError (msg : String)
  | nonSuccessStatus (code : Nat)
  | timeoutErr
  | decodeError (msg : String)
deriving DecidableEq, Repr

/-- The outcome one whole attempt of the loop body observes. -/
inductive AttemptOutcome where
  | success (content : String) (status : Nat)
  | failure (reason : FailureReason)
deriving DecidableEq, Repr

/-- Whether the outcome is a failure (any reason). -/
def AttemptOutcome.isFailure : AttemptOutcome → Bool
  | .success _ _ => false
  | .failure _ => true

/-- The fields of `models.Result` the claims are about, plus ghost fields:
`sleeps` records each `time.Sleep` duration in order, `identities` records the
value of `proxyUsed` in force at each executed attempt. -/
structure FetchResult where
  err : Option FailureReason
  content : String
  retries : Nat
  sleeps : List Nat
  identities : List (Option Proxy.ProxyURL)
  proxyUsed : Option Proxy.ProxyURL
deriving DecidableEq, Repr

/-- The retry loop of `HTTPScraper.Fetch` (internal/scraper/http.go).
`fuel` is the number of remaining permitted iterations: the Go loop runs while
`retries <= MaxRetries`, i.e. while `MaxRetries + 1 - retries > 0`, and the
caller passes `fuel = maxRetries + 1 - n`.  Per iteration, when `retries > 0`
the loop sleeps `RetryDelay * retries` and, when proxies are enabled with
rotation and more than one entry, re-applies a freshly drawn proxy; then the
attempt runs: a success returns immediately, a failure records `lastErr`,
increments `retries` and continues.  Falling out of the loop returns the
failure result carrying `lastErr` and the final `retries` count. -/
def fetchAux (d : Nat) (pcfg : Proxy.ProxyConfig) (oracle : Nat → AttemptOutcome)
    (draws : Nat → Nat) :
    Nat → Nat → Nat → Option Proxy.ProxyURL → Option FailureReason →
    List Nat → List (Option Proxy.ProxyURL) → FetchResult
  | 0, n, _, pu, lastErr, sl, ids =>
      { err := lastErr, content := "", retries := n, sleeps := sl,
        identities := ids, proxyUsed := pu }
  | fuel + 1, n, dc, pu, _lastErr, sl, ids =>
      let sl' := if n = 0 then sl else sl ++ [d * n]
      let doRotate := n ≠ 0 ∧ pcfg.enabled = true ∧ pcfg.rotate = true ∧
        1 < pcfg.list.length
      let pu' := if doRotate then Proxy.GetProxyURL pcfg (draws dc) else pu
      let dc' := if doRotate then dc + 1 else dc
      match oracle n with
      | .success c _ =>
          { err := none, content := c, retries := n, sleeps := sl',
            identities := ids ++ [pu'], proxyUsed := pu' }
      | .failure r =>
          fetchAux d pcfg oracle draws fuel (n + 1) dc' pu' (some r) sl'
            (ids ++ [pu'])

/-- `HTTPScraper.Fetch`: the initial proxy selection (when proxies are enabled
and the list is non-empty, one draw is consumed) followed by the retry loop
starting at `retries = 0`. -/
def Fetch (maxRetries d : Nat) (pcfg : Proxy.ProxyConfig)
    (oracle : Nat → AttemptOutcome) (draws : Nat → Nat) : FetchResult :=
  if pcfg.enabled = true ∧ ¬pcfg.list.isEmpty then
    fetchAux d pcfg oracle draws (maxRetries + 1) 0 1
      (Proxy.GetProxyURL pcfg (draws 0)) none [] []
  else
    fetchAux d pcfg oracle draws (maxRetries + 1) 0 0 none none [] []

/-- Two attempt outcomes have the same shape when they are equal successes or
both failures (with arbitrary reasons). -/
def sameShape : AttemptOutcome → AttemptOutcome → Prop
  | .success c st, .success c' st' => c = c' ∧ st = st'
  | .failure _, .failure _ => True
  | _, _ => False

end Scraper

namespace Extraction

/-- A value stored in the `extracted` map: the single match, or the list of
matches when there is more than one (internal/extraction/extraction.go). -/
inductive ExtractedValue where
  | one (s : String)
  | many (l : List String)
deriving DecidableEq, Repr

/-- Go map assignment `m[k] = v` on an association-list model: replace the
existing entry for `k`, or append a fresh one. -/
def upsert : List (String × ExtractedValue) → String → ExtractedValue →
    List (String × ExtractedValue)
  | [], k, v => [(k, v)]
  | (k', v') :: rest, k, v =>
      if k' = k then (k, v) :: rest else (k', v') :: upsert rest k v

/-- Go map read `m[k]`. -/
def lookupKey (name : String) : List (String × ExtractedValue) → Option ExtractedValue
  | [] => none
  | (k, v) :: rest => if k = name then some v else lookupKey name rest

/-- The `len(values)` test of `Extract`: one match is stored as the single
string, several as the list, zero stores nothing. -/
def matchesValue : List String → Option ExtractedValue
  | [] => none
  | [v] => some (.one v)
  | vs => some (.many vs)

/-- One iteration of either extraction loop: the entry's computed matches
(already `none` when the regex failed to compile or nothing matched) are
assigned into the map, or the map is left untouched. -/
def applyEntry (fval : String × String → Option ExtractedValue)
    (acc : List (String × ExtractedValue)) (p : String × String) :
    List (String × ExtractedValue) :=
  match fval p with
  | none => acc
  | some ev => upsert acc p.1 ev

/-- `Extractor.Extract` (internal/extraction/extraction.go).  The goquery
selector engine is abstracted as `selM : selector ↦ matched texts`, the regex
engine as `regOk : pattern ↦ compiles?` and `regM : pattern ↦ matches`.
First the selector loop fills the map (`len==1` stores the string, `len>1` the
list, zero stores nothing), then the regex loop does the same, skipping
patterns that fail to compile.  (XPath is not implemented by the source.) -/
def extractData (selectors regexes : List (String × String))
    (selM : String → List String) (regOk : String → Bool)
    (regM : String → List String) : List (String × ExtractedValue) :=
  let m1 := selectors.foldl (applyEntry fun p => matchesValue (selM p.2)) []
  regexes.foldl
    (applyEntry fun p => if regOk p.2 then matchesValue (regM p.2) else none) m1

end Extraction

namespace Worker

/-- The status of one worker goroutine: waiting on the jobs channel, holding a
pulled URL it has not yet turned into a sent result, or exited (its
`range p.Jobs` loop ended). -/
inductive WStatus where
  | ready
  | busy (url : String)
  | exited
deriving DecidableEq, Repr

/-- The shared state of the pool: the pending jobs channel content (`AddJobs`
enqueues the whole batch and closes the channel up front), the workers, the
results sent so far, and whether `close(p.Results)` has happened. -/
structure PoolState (R : Type) where
  jobs : List String
  workers : List WStatus
  results : List R
  closed : Bool
deriving DecidableEq, Repr

/-- The URLs currently held by busy workers. -/
def busyList (ws : List WStatus) : List String :=
  ws.filterMap fun w => match w with
    | .busy u => some u
    | _ => none

/-- The ungated interleaving semantics of the pool (internal/worker, `Start`,
`worker`, `AddJobs`): a ready worker pulls the next job from the non-empty
intake (`for url := range p.Jobs`); a busy worker fetches it and sends the
result (`p.Results <- p.Scraper.Fetch(url)`); a ready worker exits when the
intake is drained and closed; the closer goroutine (`wg.Wait(); close(...)`)
seals the results channel once every worker has exited.  `f` abstracts
`Scraper.Fetch` as a function from URL to result (failures are ordinary result
values, never exceptions).  The worker's blocking `<-rateLimiter.C` receive is
NOT modelled here: omitting the gate only adds behaviours, so this relation
over-approximates the pool and is used for safety properties only; `GStep`
below refines it with the rate gate and the stopped ticker. -/
inductive Step {R : Type} (f : String → R) : PoolState R → PoolState R → Prop where
  | pull (u : String) (rest : List String) (l₁ l₂ : List WStatus)
      (res : List R) (c : Bool) :
      Step f ⟨u :: rest, l₁ ++ WStatus.ready :: l₂, res, c⟩
        ⟨rest, l₁ ++ WStatus.busy u :: l₂, res, c⟩
  | emit (u : String) (jobs : List String) (l₁ l₂ : List WStatus)
      (res : List R) (c : Bool) :
      Step f ⟨jobs, l₁ ++ WStatus.busy u :: l₂, res, c⟩
        ⟨jobs, l₁ ++ WStatus.ready :: l₂, res ++ [f u], c⟩
  | exit (l₁ l₂ : List WStatus) (res : List R) (c : Bool) :
      Step f ⟨[], l₁ ++ WStatus.ready :: l₂, res, c⟩
        ⟨[], l₁ ++ WStatus.exited :: l₂, res, c⟩
  | close (jobs : List String) (ws : List WStatus) (res : List R) :
      (∀ w ∈ ws, w = WStatus.exited) →
      Step f ⟨jobs, ws, res, false⟩ ⟨jobs, ws, res, true⟩

/-- The pool right after `NewPool`/`Start`/`AddJobs`: the whole batch is
enqueued, `W` workers are ranging over the jobs channel, nothing sent yet. -/
def initState (R : Type) (urls : List String) (W : Nat) : PoolState R :=
  ⟨urls, List.replicate W WStatus.ready, [], false⟩

/-- The pool invariant: the results are exactly the fetched outcomes of some
list of already-processed jobs, and the submitted jobs split (as a multiset)
into pending, in-flight and processed jobs; a worker exits only after the
intake drained; the results channel is closed only with every worker exited;
the worker count is fixed. -/
def Inv {R : Type} (f : String → R) (urls : List String) (W : Nat)
    (s : PoolState R) : Prop :=
  (∃ processed : List String,
     s.results = processed.map f ∧
     (↑urls : Multiset String) = ↑s.jobs + ↑(busyList s.workers) + ↑processed) ∧
  (WStatus.exited ∈ s.workers → s.jobs = []) ∧
  (s.closed = true → ∀ w ∈ s.workers, w = WStatus.exited) ∧
  s.workers.length = W

/-- The status of one worker goroutine in the gated (rate-limited) model of
the `worker` loop (part_001): waiting on the jobs channel, holding a pulled
URL while blocked on `<-rateLimiter.C`, fetching/sending after the gate let
it through, or exited. -/
inductive GWStatus where
  | ready
  | gated (url : String)
  | busy (url : String)
  | exited
deriving DecidableEq, Repr

/-- The pool state including the shared `time.Ticker` rate gate: `stopped` is
whether `rateLimiter.Stop()` has run, `buffered` how many ticks sit in the
ticker's one-slot channel (0 or 1). -/
structure GPoolState (R : Type) where
  jobs : List String
  workers : List GWStatus
  results : List R
  closed : Bool
  stopped : Bool
  buffered : Nat
deriving DecidableEq, Repr

/-- The gated interleaving semantics of the pool (part_001), refining `Step`
with the worker's blocking receive on the rate limiter (part_001 line 62):
a worker that pulled a URL must first acquire a tick from the shared ticker
before fetching.  A running ticker delivers ticks into its one-slot channel
(a tick arriving while the slot is full is dropped, so the slot holds at most
one); `Stop` halts tick delivery but neither closes the channel nor drains an
already-buffered tick (Go `time.Ticker` semantics).  The remaining
transitions are as in `Step`. -/
inductive GStep {R : Type} (f : String → R) : GPoolState R → GPoolState R → Prop where
  | tick (jobs : List String) (ws : List GWStatus) (res : List R) (c : Bool) (b : Nat) :
      GStep f ⟨jobs, ws, res, c, false, b⟩ ⟨jobs, ws, res, c, false, 1⟩
  | stop (jobs : List String) (ws : List GWStatus) (res : List R) (c : Bool) (b : Nat) :
      GStep f ⟨jobs, ws, res, c, false, b⟩ ⟨jobs, ws, res, c, true, b⟩
  | pull (u : String) (rest : List String) (l₁ l₂ : List GWStatus)
      (res : List R) (c : Bool) (st : Bool) (b : Nat) :
      GStep f ⟨u :: rest, l₁ ++ GWStatus.ready :: l₂, res, c, st, b⟩
        ⟨rest, l₁ ++ GWStatus.gated u :: l₂, res, c, st, b⟩
  | acquire (u : String) (jobs : List String) (l₁ l₂ : List GWStatus)
      (res : List R) (c : Bool) (st : Bool) (b : Nat) :
      GStep f ⟨jobs, l₁ ++ GWStatus.gated u :: l₂, res, c, st, b + 1⟩
        ⟨jobs, l₁ ++ GWStatus.busy u :: l₂, res, c, st, b⟩
  | emit (u : String) (jobs : List String) (l₁ l₂ : List GWStatus)
      (res : List R) (c : Bool) (st : Bool) (b : Nat) :
      GStep f ⟨jobs, l₁ ++ GWStatus.busy u :: l₂, res, c, st, b⟩
        ⟨jobs, l₁ ++ GWStatus.ready :: l₂, res ++ [f u], c, st, b⟩
  | exit (l₁ l₂ : List GWStatus) (res : List R) (c : Bool) (st : Bool) (b : Nat) :
      GStep f ⟨[], l₁ ++ GWStatus.ready :: l₂, res, c, st, b⟩
        ⟨[], l₁ ++ GWStatus.exited :: l₂, res, c, st, b⟩
  | close (jobs : List String) (ws : List GWStatus) (res : List R)
      (st : Bool) (b : Nat) :
      (∀ w ∈ ws, w = GWStatus.exited) →
      GStep f ⟨jobs, ws, res, false, st, b⟩ ⟨jobs, ws, res, true, st, b⟩

/-- The pool right after `Start` has returned and `AddJobs` ran.  `Start`
creates the ticker and `defer`s `rateLimiter.Stop()` (part_001 lines 40-41),
then returns at once — well before the first tick of the positive rate
interval (default 1s) could fire — so at this point the shared ticker is
already stopped and its channel holds no tick. -/
def initGState (R : Type) (urls : List String) (W : Nat) : GPoolState R :=
  ⟨urls, List.replicate W GWStatus.ready, [], false, true, 0⟩

/-- The wedged-pool invariant: the gate is stopped and empty, nothing has
been emitted, the channel is open, no worker ever gets past the gate, and —
while jobs remain or some worker is stuck at the gate — the pool can never
reach the all-exited state that would trigger the close. -/
def GInv {R : Type} (W : Nat) (s : GPoolState R) : Prop :=
  s.stopped = true ∧ s.buffered = 0 ∧ s.results = [] ∧ s.closed = false ∧
  (∀ u, GWStatus.busy u ∉ s.workers) ∧
  (s.jobs ≠ [] ∨ ∃ u, GWStatus.gated u ∈ s.workers) ∧
  (GWStatus.exited ∈ s.workers → s.jobs = []) ∧
  s.workers.length = W

end Worker

namespace PoolStart

/-- Modelled Go runtime semantics: `time.NewTicker` panics when the interval
is not positive ("non-positive interval for NewTicker").  Durations are int64
nanoseconds. -/
def newTicker (d : Int) : Except String Unit :=
  if d ≤ 0 then Except.error "non-positive interval for NewTicker" else Except.ok ()

/-- `Pool.Start` (internal/worker): creates the rate-limiter ticker from the
configured `RateLimit` and then launches the `W` workers and the closer
goroutine; a ticker panic aborts `Start` before any worker runs. -/
def start (rateLimit : Int) (W : Nat) : Except String Nat :=
  match newTicker rateLimit with
  | Except.error e => Except.error e
  | Except.ok _ => Except.ok W

end PoolStart

namespace Fixtures

/-- Concrete configuration with proxies disabled. -/
def pcfg0 : Proxy.ProxyConfig := ⟨false, false, [], "", ""⟩

/-- Concrete configuration: proxy rotation enabled over two proxies. -/
def cfg2 : Proxy.ProxyConfig := ⟨true, true, ["http://p1", "http://p2"], "", ""⟩

/-- An attempt oracle that fails every attempt with a timeout. -/
def oracleFail : Nat → Scraper.AttemptOutcome := fun _ => .failure .timeoutErr

/-- An attempt oracle that fails every attempt with a transport error. -/
def oracleFailT : Nat → Scraper.AttemptOutcome :=
  fun _ => .failure (.transportError "connection refused")

/-- An attempt oracle that succeeds on every attempt. -/
def oracleOk : Nat → Scraper.AttemptOutcome := fun _ => .success "body" 200

/-- An attempt oracle failing attempt 0 with a timeout, succeeding afterwards. -/
def oracleFS : Nat → Scraper.AttemptOutcome :=
  fun n => if n = 0 then .failure .timeoutErr else .success "ok" 200

/-- Like `oracleFS` with a different failure reason on attempt 0. -/
def oracleFS2 : Nat → Scraper.AttemptOutcome :=
  fun n => if n = 0 then .failure (.nonSuccessStatus 503) else .success "ok" 200

/-- The constantly-zero random stream. -/
def drawsZero : Nat → Nat := fun _ => 0

/-- The identity random stream. -/
def drawsId : Nat → Nat := fun k => k

/-- A concrete fetch function for the pool model: the job "a" fails
permanently, every other job succeeds. -/
def demoF : String → String :=
  fun u => if u = "a" then "error: connection refused" else "ok:" ++ u

/-- The state the demo pool run ends in. -/
def demoFinal : Worker.PoolState String :=
  ⟨[], [Worker.WStatus.exited], [demoF "a", demoF "b"], true⟩

/-- A gated-pool state one step after `initGState String ["a"] 3`: the first
worker pulled the only job and now sits at the stopped rate gate. -/
def gatedDemo : Worker.GPoolState String :=
  ⟨[], [Worker.GWStatus.gated "a", Worker.GWStatus.ready, Worker.GWStatus.ready],
    [], false, true, 0⟩

/-- Concrete selector configuration: `title` matches once, `heading` not at all. -/
def demoSelectors : List (String × String) := [("title", "title"), ("heading", "h1")]

/-- Concrete regex configuration: `year` has two matches, `bad` fails to compile. -/
def demoRegexes : List (String × String) := [("year", "[0-9]+"), ("bad", "(")]

/-- Concrete selector-match oracle. -/
def demoSelM : String → List String := fun s => if s = "title" then ["My Title"] else []

/-- Concrete regex-compilation oracle: the pattern `(` does not compile. -/
def demoRegOk : String → Bool := fun p => p ≠ "("

/-- Concrete regex-match oracle. -/
def demoRegM : String → List String :=
  fun p => if p = "[0-9]+" then ["1999", "2024"] else []

end Fixtures

namespace Scraper

theorem fetchAux_allFail_retries (d : Nat) (pcfg : Proxy.ProxyConfig)
    (oracle : Nat → AttemptOutcome) (draws : Nat → Nat)
    (r : Nat → FailureReason) (h : ∀ n, oracle n = .failure (r n)) :
    ∀ fuel n dc pu le sl ids,
      (fetchAux d pcfg oracle draws fuel n dc pu le sl ids).retries = n + fuel := by
  intro fuel
  induction fuel with
  | zero => intro n dc pu le sl ids; simp [fetchAux]
  | succ f ih =>
    intro n dc pu le sl ids
    simp only [fetchAux, h n]
    rw [ih]
    omega

theorem fetchAux_allFail_err (d : Nat) (pcfg : Proxy.ProxyConfig)
    (oracle : Nat → AttemptOutcome) (draws : Nat → Nat)
    (r : Nat → FailureReason) (h : ∀ n, oracle n = .failure (r n)) :
    ∀ fuel n dc pu le sl ids,
      (fetchAux d pcfg oracle draws fuel n dc pu le sl ids).err =
        (match fuel with
         | 0 => le
         | f + 1 => some (r (n + f))) := by
  intro fuel
  induction fuel with
  | zero => intro n dc pu le sl ids; simp [fetchAux]
  | succ f ih =>
    intro n dc pu le sl ids
    simp only [fetchAux, h n]
    rw [ih]
    cases f with
    | zero => simp
    | succ f' =>
      show some (r (n + 1 + f')) = some (r (n + (f' + 1)))
      rw [show n + 1 + f' = n + (f' + 1) by omega]

theorem fetchAux_allFail_sleeps (d : Nat) (pcfg : Proxy.ProxyConfig)
    (oracle : Nat → AttemptOutcome) (draws : Nat → Nat)
    (r : Nat → FailureReason) (h : ∀ n, oracle n = .failure (r n)) :
    ∀ fuel n dc pu le sl ids,
      (fetchAux d pcfg oracle draws fuel n dc pu le sl ids).sleeps =
        sl ++ ((List.range' n fuel).filterMap fun m =>
          if m = 0 then none else some (d * m)) := by
  intro fuel
  induction fuel with
  | zero => intro n dc pu le sl ids; simp [fetchAux]
  | succ f ih =>
    intro n dc pu le sl ids
    simp only [fetchAux, h n]
    rw [ih, List.range'_succ]
    by_cases hn0 : n = 0
    · subst hn0; simp [List.filterMap_cons]
    · simp [hn0, List.filterMap_cons, List.append_assoc]

theorem filterMap_delay_eq_map (d : Nat) :
    ∀ (k s : Nat), 1 ≤ s →
      ((List.range' s k).filterMap fun m => if m = 0 then none else some (d * m)) =
        (List.range' s k).map fun m => d * m := by
  intro k
  induction k with
  | zero => intro s _; simp
  | succ k ih =>
    intro s hs
    rw [List.range'_succ]
    have hs0 : s ≠ 0 := by omega
    simp only [List.filterMap_cons, List.map_cons, hs0, if_neg, ite_false]
    rw [ih (s + 1) (by omega)]

theorem fetchAux_firstSuccess (d : Nat) (pcfg : Proxy.ProxyConfig)
    (oracle : Nat → AttemptOutcome) (draws : Nat → Nat)
    (i : Nat) (c : String) (st : Nat)
    (hs : oracle i = .success c st)
    (hf : ∀ j, j < i → (oracle j).isFailure = true) :
    ∀ fuel n dc pu le sl ids, n ≤ i → i < n + fuel →
      (fetchAux d pcfg oracle draws fuel n dc pu le sl ids).err = none ∧
      (fetchAux d pcfg oracle draws fuel n dc pu le sl ids).retries = i ∧
      (fetchAux d pcfg oracle draws fuel n dc pu le sl ids).content = c := by
  intro fuel
  induction fuel with
  | zero => intro n dc pu le sl ids hn hi; omega
  | succ f ih =>
    intro n dc pu le sl ids hn hi
    by_cases hni : n = i
    · subst hni
      simp [fetchAux, hs]
    · have hlt : n < i := lt_of_le_of_ne hn hni
      have hfn := hf n hlt
      cases hoc : oracle n with
      | success c' st' => rw [hoc] at hfn; simp [AttemptOutcome.isFailure] at hfn
      | failure rr =>
        simp only [fetchAux, hoc]
        exact ih (n + 1) _ _ _ _ _ (by omega) (by omega)

theorem fetchAux_sameShape (d : Nat) (pcfg : Proxy.ProxyConfig)
    (o1 o2 : Nat → AttemptOutcome) (draws : Nat → Nat)
    (h : ∀ n, sameShape (o1 n) (o2 n)) :
    ∀ fuel n dc pu le1 le2 sl ids, le1.isSome = le2.isSome →
      (fetchAux d pcfg o1 draws fuel n dc pu le1 sl ids).retries =
        (fetchAux d pcfg o2 draws fuel n dc pu le2 sl ids).retries ∧
      (fetchAux d pcfg o1 draws fuel n dc pu le1 sl ids).sleeps =
        (fetchAux d pcfg o2 draws fuel n dc pu le2 sl ids).sleeps ∧
      (fetchAux d pcfg o1 draws fuel n dc pu le1 sl ids).err.isSome =
        (fetchAux d pcfg o2 draws fuel n dc pu le2 sl ids).err.isSome ∧
      (fetchAux d pcfg o1 draws fuel n dc pu le1 sl ids).content =
        (fetchAux d pcfg o2 draws fuel n dc pu le2 sl ids).content ∧
      (fetchAux d pcfg o1 draws fuel n dc pu le1 sl ids).identities =
        (fetchAux d pcfg o2 draws fuel n dc pu le2 sl ids).identities := by
  intro fuel
  induction fuel with
  | zero =>
    intro n dc pu le1 le2 sl ids hle
    simpa [fetchAux] using hle
  | succ f ih =>
    intro n dc pu le1 le2 sl ids hle
    have hn := h n
    cases ho1 : o1 n with
    | success c st =>
      cases ho2 : o2 n with
      | success c' st' =>
        rw [ho1, ho2] at hn
        obtain ⟨rfl, rfl⟩ := hn
        simp [fetchAux, ho1, ho2]
      | failure r2 => rw [ho1, ho2] at hn; exact absurd hn (by simp [sameShape])
    | failure r1 =>
      cases ho2 : o2 n with
      | success c' st' => rw [ho1, ho2] at hn; exact absurd hn (by simp [sameShape])
      | failure r2 =>
        simp only [fetchAux, ho1, ho2]
        exact ih (n + 1) _ _ (some r1) (some r2) _ _ (by simp)

end Scraper

/-- C2: for every Job whose every fetch attempt fails, with `max_retries >= 0`,
the Result returned by `Fetch` is a failure whose `Err` carries the error of
the last attempt, and its `Retries` field equals `max_retries + 1`. -/
theorem fetch_allfail_result (maxRetries d : Nat) (pcfg : Proxy.ProxyConfig)
    (draws : Nat → Nat) (r : Nat → Scraper.FailureReason)
    (oracle : Nat → Scraper.AttemptOutcome)
    (h : ∀ n, oracle n = .failure (r n)) :
    (Scraper.Fetch maxRetries d pcfg oracle draws).err = some (r maxRetries) ∧
    (Scraper.Fetch maxRetries d pcfg oracle draws).retries = maxRetries + 1 := by
  unfold Scraper.Fetch
  split
  all_goals
    refine ⟨?_, ?_⟩
    · rw [Scraper.fetchAux_allFail_err d pcfg oracle draws r h]
      simp
    · rw [Scraper.fetchAux_allFail_retries d pcfg oracle draws r h]
      omega

/-- Witness for C2: with three attempts (`max_retries = 2`) all timing out, the
Result is a failure with `Retries = 3`. -/
theorem fetch_allfail_result_witness :
    (∀ n, Fixtures.oracleFail n = .failure .timeoutErr) ∧
    (Scraper.Fetch 2 7 Fixtures.pcfg0 Fixtures.oracleFail Fixtures.drawsZero).err =
      some .timeoutErr ∧
    (Scraper.Fetch 2 7 Fixtures.pcfg0 Fixtures.oracleFail Fixtures.drawsZero).retries = 3 := by
  have h := fetch_allfail_result 2 7 Fixtures.pcfg0 Fixtures.drawsZero
    (fun _ => .timeoutErr) Fixtures.oracleFail (fun _ => rfl)
  exact ⟨fun _ => rfl, h.1, h.2⟩

/-- C3 counterexample: a Job that succeeds on attempt `i = 0` (with
`max_retries = 3`) yields a success Result whose `Retries` field is `0`, not
`i + 1 = 1`: the `Retries` field counts the failed attempts before the
success, not the attempts. -/
theorem fetch_success_retries_counterexample :
    Fixtures.oracleOk 0 = Scraper.AttemptOutcome.success "body" 200 ∧
    (0 : Nat) ≤ 3 ∧
    (Scraper.Fetch 3 5 Fixtures.pcfg0 Fixtures.oracleOk Fixtures.drawsZero).err = none ∧
    (Scraper.Fetch 3 5 Fixtures.pcfg0 Fixtures.oracleOk Fixtures.drawsZero).retries ≠ 0 + 1 := by
  decide

/-- C3 amended: for every Job whose fetch first succeeds on attempt `i`
(0-based) with `i <= max_retries`, the Result returned by `Fetch` is a success
(empty `Err`, the fetched content) whose `Retries` field equals `i`, the
number of failed attempts before the success (the total attempt count is
`i + 1 = Retries + 1`). -/
theorem fetch_success_retries_eq_prior_failures (maxRetries d i : Nat)
    (pcfg : Proxy.ProxyConfig) (draws : Nat → Nat) (c : String) (st : Nat)
    (oracle : Nat → Scraper.AttemptOutcome)
    (hi : i ≤ maxRetries) (hs : oracle i = .success c st)
    (hf : ∀ j, j < i → (oracle j).isFailure = true) :
    (Scraper.Fetch maxRetries d pcfg oracle draws).err = none ∧
    (Scraper.Fetch maxRetries d pcfg oracle draws).retries = i ∧
    (Scraper.Fetch maxRetries d pcfg oracle draws).content = c := by
  unfold Scraper.Fetch
  split
  all_goals
    exact Scraper.fetchAux_firstSuccess d pcfg oracle draws i c st hs hf
      (maxRetries + 1) 0 _ _ _ _ _ (by omega) (by omega)

/-- Witness for the amended C3: first success on attempt `i = 1` with
`max_retries = 1` gives a success Result with `Retries = 1`. -/
theorem fetch_success_retries_eq_prior_failures_witness :
    (1 : Nat) ≤ 1 ∧ Fixtures.oracleFS 1 = .success "ok" 200 ∧
    (Scraper.Fetch 1 5 Fixtures.pcfg0 Fixtures.oracleFS Fixtures.drawsZero).err = none ∧
    (Scraper.Fetch 1 5 Fixtures.pcfg0 Fixtures.oracleFS Fixtures.drawsZero).retries = 1 := by
  have h := fetch_success_retries_eq_prior_failures 1 5 1 Fixtures.pcfg0
    Fixtures.drawsZero "ok" 200 Fixtures.oracleFS (by omega) rfl
    (by intro j hj; have hj0 : j = 0 := by omega
        subst hj0; rfl)
  exact ⟨le_refl 1, rfl, h.1, h.2.1⟩

/-- C4: for every repeatedly-failing Job with retry delay base `d`, the
sequence of delays slept is `d, 2d, ..., max_retries * d` — before attempt `n`
(0-based, `n >= 1`) exactly `n * d` is slept, and nothing is slept before
attempt 0: linear, not exponential, growth. -/
theorem fetch_retry_delays_linear (maxRetries d : Nat) (pcfg : Proxy.ProxyConfig)
    (draws : Nat → Nat) (r : Nat → Scraper.FailureReason)
    (oracle : Nat → Scraper.AttemptOutcome)
    (h : ∀ n, oracle n = .failure (r n)) :
    (Scraper.Fetch maxRetries d pcfg oracle draws).sleeps =
      (List.range' 1 maxRetries).map (fun n => d * n) ∧
    ∀ n, 1 ≤ n → n ≤ maxRetries →
      (Scraper.Fetch maxRetries d pcfg oracle draws).sleeps[n - 1]? = some (d * n) := by
  have hmain : (Scraper.Fetch maxRetries d pcfg oracle draws).sleeps =
      (List.range' 1 maxRetries).map (fun n => d * n) := by
    unfold Scraper.Fetch
    split
    all_goals
      rw [Scraper.fetchAux_allFail_sleeps d pcfg oracle draws r h, List.range'_succ]
      simp only [List.filterMap_cons, if_pos rfl, List.nil_append]
      exact Scraper.filterMap_delay_eq_map d maxRetries (0 + 1) (by omega)
  refine ⟨hmain, ?_⟩
  intro n h1 h2
  rw [hmain, List.getElem?_map, List.getElem?_range' 1 1 (by omega : n - 1 < maxRetries)]
  rw [show 1 + 1 * (n - 1) = n by omega]
  rfl

/-- Witness for C4: three failing attempts after the first with
`retry_delay_base = 100` sleep `100, 200, 300`. -/
theorem fetch_retry_delays_linear_witness :
    (∀ n, Fixtures.oracleFail n = .failure .timeoutErr) ∧
    (Scraper.Fetch 3 100 Fixtures.pcfg0 Fixtures.oracleFail Fixtures.drawsZero).sleeps =
      [100, 200, 300] := by
  have h := fetch_retry_delays_linear 3 100 Fixtures.pcfg0 Fixtures.drawsZero
    (fun _ => .timeoutErr) Fixtures.oracleFail (fun _ => rfl)
  refine ⟨fun _ => rfl, ?_⟩
  rw [h.1]
  rfl

/-- C6: the retry decision is independent of the failure reason: two runs
whose attempts have the same shape (identical successes, failures of
arbitrary — possibly different — reasons at the same attempt indices) have
the same attempt count, the same delays, the same success/failure status, the
same content and the same identity sequence. -/
theorem fetch_retry_decision_reason_blind (maxRetries d : Nat)
    (pcfg : Proxy.ProxyConfig) (draws : Nat → Nat)
    (o1 o2 : Nat → Scraper.AttemptOutcome)
    (h : ∀ n, Scraper.sameShape (o1 n) (o2 n)) :
    (Scraper.Fetch maxRetries d pcfg o1 draws).retries =
      (Scraper.Fetch maxRetries d pcfg o2 draws).retries ∧
    (Scraper.Fetch maxRetries d pcfg o1 draws).sleeps =
      (Scraper.Fetch maxRetries d pcfg o2 draws).sleeps ∧
    (Scraper.Fetch maxRetries d pcfg o1 draws).err.isSome =
      (Scraper.Fetch maxRetries d pcfg o2 draws).err.isSome ∧
    (Scraper.Fetch maxRetries d pcfg o1 draws).content =
      (Scraper.Fetch maxRetries d pcfg o2 draws).content ∧
    (Scraper.Fetch maxRetries d pcfg o1 draws).identities =
      (Scraper.Fetch maxRetries d pcfg o2 draws).identities := by
  by_cases hc : pcfg.enabled = true ∧ ¬pcfg.list.isEmpty
  · simp only [Scraper.Fetch, if_pos hc]
    exact Scraper.fetchAux_sameShape d pcfg o1 o2 draws h (maxRetries + 1) 0 1 _
      none none [] [] rfl
  · simp only [Scraper.Fetch, if_neg hc]
    exact Scraper.fetchAux_sameShape d pcfg o1 o2 draws h (maxRetries + 1) 0 0
      none none none [] [] rfl

/-- Witness for C6: a timeout on attempt 0 and a 503 status on attempt 0 lead
to identical retry behaviour. -/
theorem fetch_retry_decision_reason_blind_witness :
    Scraper.sameShape (Fixtures.oracleFS 0) (Fixtures.oracleFS2 0) ∧
    (Scraper.Fetch 2 9 Fixtures.pcfg0 Fixtures.oracleFS Fixtures.drawsZero).retries =
      (Scraper.Fetch 2 9 Fixtures.pcfg0 Fixtures.oracleFS2 Fixtures.drawsZero).retries ∧
    (Scraper.Fetch 2 9 Fixtures.pcfg0 Fixtures.oracleFS Fixtures.drawsZero).sleeps =
      (Scraper.Fetch 2 9 Fixtures.pcfg0 Fixtures.oracleFS2 Fixtures.drawsZero).sleeps := by
  have hshape : ∀ n, Scraper.sameShape (Fixtures.oracleFS n) (Fixtures.oracleFS2 n) := by
    intro n
    cases n with
    | zero => simp [Fixtures.oracleFS, Fixtures.oracleFS2, Scraper.sameShape]
    | succ m => simp [Fixtures.oracleFS, Fixtures.oracleFS2, Scraper.sameShape]
  have h := fetch_retry_decision_reason_blind 2 9 Fixtures.pcfg0 Fixtures.drawsZero
    Fixtures.oracleFS Fixtures.oracleFS2 hshape
  exact ⟨hshape 0, h.1, h.2.1⟩

/-- C7 counterexample: with rotation enabled over two proxies, a Job that
fails attempt 0 and succeeds attempt 1 can use the SAME proxy on both
attempts — here the random stream draws index 0 twice — because rotation
re-samples uniformly from the whole pool, including the previous proxy. -/
theorem proxy_rotation_counterexample :
    Fixtures.cfg2.enabled = true ∧ Fixtures.cfg2.rotate = true ∧
    Fixtures.cfg2.list.length = 2 ∧
    Fixtures.oracleFS 0 = .failure .timeoutErr ∧
    Fixtures.oracleFS 1 = .success "ok" 200 ∧
    (Scraper.Fetch 1 5 Fixtures.cfg2 Fixtures.oracleFS Fixtures.drawsZero).identities[1]? =
      (Scraper.Fetch 1 5 Fixtures.cfg2 Fixtures.oracleFS Fixtures.drawsZero).identities[0]? := by
  decide

/-- C7 amended: when proxy rotation is enabled with a pool of size greater
than 1, for a Job that fails attempt 0 and succeeds attempt 1, the identity
used on attempt 1 is freshly re-drawn from the full pool (independently of
attempt 0's draw); it differs from attempt 0's identity whenever the two
draws select different pool indices (the pool having no duplicates), but may
coincide when the draw repeats the same index. -/
theorem proxy_rotation_resamples (maxRetries d : Nat) (pcfg : Proxy.ProxyConfig)
    (oracle : Nat → Scraper.AttemptOutcome) (draws : Nat → Nat)
    (r : Scraper.FailureReason) (c : String) (st : Nat)
    (hen : pcfg.enabled = true) (hrot : pcfg.rotate = true)
    (hlen : 1 < pcfg.list.length) (hm : 1 ≤ maxRetries)
    (h0 : oracle 0 = .failure r) (h1 : oracle 1 = .success c st) :
    (Scraper.Fetch maxRetries d pcfg oracle draws).identities =
      [Proxy.GetProxyURL pcfg (draws 0), Proxy.GetProxyURL pcfg (draws 1)] ∧
    (pcfg.list.Nodup → draws 1 % pcfg.list.length ≠ draws 0 % pcfg.list.length →
      Proxy.GetProxyURL pcfg (draws 1) ≠ Proxy.GetProxyURL pcfg (draws 0)) := by
  have hne : pcfg.list.isEmpty = false := by
    cases hl : pcfg.list with
    | nil => rw [hl] at hlen; simp at hlen
    | cons a l => simp
  constructor
  · obtain ⟨m, rfl⟩ : ∃ m, maxRetries = m + 1 := ⟨maxRetries - 1, by omega⟩
    simp only [Scraper.Fetch, hen, hne, Bool.not_false, and_self, if_true,
      Bool.false_eq_true, not_false_iff, ite_true]
    simp [Scraper.fetchAux, h0, h1, hen, hrot, hlen]
  · intro hnd hneq heq
    have hi1 : draws 1 % pcfg.list.length < pcfg.list.length := Nat.mod_lt _ (by omega)
    have hi0 : draws 0 % pcfg.list.length < pcfg.list.length := Nat.mod_lt _ (by omega)
    apply hneq
    have hsel : pcfg.list.getD (draws 1 % pcfg.list.length) "" =
        pcfg.list.getD (draws 0 % pcfg.list.length) "" := by
      simp only [Proxy.GetProxyURL, hen, hne, hrot, hlen, and_self, if_true,
        Bool.false_eq_true, false_or, Bool.true_eq_false, or_false, ite_true,
        ite_false, if_neg, not_false_iff] at heq
      have := heq
      simp only [Option.some_inj, Proxy.ProxyURL.mk.injEq] at this
      exact this.1
    rw [List.getD_eq_getElem pcfg.list "" hi1, List.getD_eq_getElem pcfg.list "" hi0] at hsel
    exact (hnd.getElem_inj_iff).mp hsel

/-- Witness for the amended C7: two proxies, the random stream draws index 0
then index 1, the Job fails attempt 0 and succeeds attempt 1: attempt 1's
identity is the second proxy, different from attempt 0's. -/
theorem proxy_rotation_resamples_witness :
    Fixtures.cfg2.enabled = true ∧ (1 : Nat) ≤ 1 ∧
    Fixtures.oracleFS 0 = .failure .timeoutErr ∧
    (Scraper.Fetch 1 5 Fixtures.cfg2 Fixtures.oracleFS Fixtures.drawsId).identities =
      [Proxy.GetProxyURL Fixtures.cfg2 0, Proxy.GetProxyURL Fixtures.cfg2 1] ∧
    Proxy.GetProxyURL Fixtures.cfg2 1 ≠ Proxy.GetProxyURL Fixtures.cfg2 0 := by
  have h := proxy_rotation_resamples 1 5 Fixtures.cfg2 Fixtures.oracleFS
    Fixtures.drawsId .timeoutErr "ok" 200 rfl rfl (by decide) (le_refl 1) rfl rfl
  exact ⟨rfl, le_refl 1, rfl, h.1, h.2 (by decide) (by decide)⟩

/-- C5 counterexample: `Pool.Start` with a zero rate interval does not run
unthrottled — it panics, because `time.NewTicker` rejects non-positive
intervals. -/
theorem pool_start_zero_interval_counterexample :
    PoolStart.start 0 3 = Except.error "non-positive interval for NewTicker" := rfl

/-- C5 amended: `Pool.Start` succeeds exactly when the configured rate
interval is positive; with a zero (or negative) interval the `time.NewTicker`
call panics and aborts the pool before any worker runs, so zero is not a
valid unthrottled configuration. -/
theorem pool_start_ok_iff_pos_interval (rateLimit : Int) (W : Nat) :
    PoolStart.start rateLimit W = Except.ok W ↔ 0 < rateLimit := by
  by_cases h : rateLimit ≤ 0
  · simp only [PoolStart.start, PoolStart.newTicker, if_pos h]
    constructor
    · intro hx; exact absurd hx (by simp)
    · intro hx; omega
  · simp only [PoolStart.start, PoolStart.newTicker, if_neg h]
    constructor
    · intro _; omega
    · intro _; trivial

namespace Extraction

theorem lookupKey_upsert (m : List (String × ExtractedValue)) (k name : String)
    (v : ExtractedValue) :
    lookupKey name (upsert m k v) =
      if k = name then some v else lookupKey name m := by
  induction m with
  | nil => simp [upsert, lookupKey]
  | cons p rest ih =>
    obtain ⟨k', v'⟩ := p
    by_cases hk : k' = k
    · subst hk
      by_cases hn : k' = name <;> simp [upsert, lookupKey, hn]
    · by_cases hn : k' = name
      · subst hn
        have hkn : ¬(k = k') := fun hEq => hk hEq.symm
        simp [upsert, hk, lookupKey, hkn]
      · simp [upsert, hk, lookupKey, hn, ih]

theorem lookupKey_applyEntry_ne (fval : String × String → Option ExtractedValue)
    (acc : List (String × ExtractedValue)) (p : String × String) (name : String)
    (h : ¬(p.1 = name)) :
    lookupKey name (applyEntry fval acc p) = lookupKey name acc := by
  unfold applyEntry
  cases fval p with
  | none => rfl
  | some ev => rw [lookupKey_upsert]; simp [h]

theorem lookupKey_foldl_notmem (fval : String × String → Option ExtractedValue)
    (l : List (String × String)) (name : String) :
    ∀ acc, name ∉ l.map Prod.fst →
      lookupKey name (l.foldl (applyEntry fval) acc) = lookupKey name acc := by
  induction l with
  | nil => intro acc _; rfl
  | cons p rest ih =>
    intro acc h
    rw [List.map_cons, List.mem_cons] at h
    push_neg at h
    simp only [List.foldl_cons]
    rw [ih _ h.2, lookupKey_applyEntry_ne fval acc p name (fun hEq => h.1 hEq.symm)]

theorem lookupKey_foldl_mem (fval : String × String → Option ExtractedValue)
    (l : List (String × String)) (name : String) :
    ∀ acc, (l.map Prod.fst).Nodup → ∀ p ∈ l, p.1 = name →
      lookupKey name acc = none →
      lookupKey name (l.foldl (applyEntry fval) acc) = fval p := by
  induction l with
  | nil => intro acc _ p hp; exact absurd hp (List.not_mem_nil p)
  | cons q rest ih =>
    intro acc hnd p hp hpname hacc
    rw [List.map_cons, List.nodup_cons] at hnd
    simp only [List.foldl_cons]
    rcases List.mem_cons.mp hp with rfl | hp'
    · have hq : name ∉ rest.map Prod.fst := hpname ▸ hnd.1
      rw [lookupKey_foldl_notmem fval rest name _ hq]
      unfold applyEntry
      cases hfq : fval p with
      | none => exact hacc
      | some ev => rw [lookupKey_upsert]; simp [hpname]
    · have hqname : ¬(q.1 = name) := by
        intro hEq
        exact hnd.1 (hEq ▸ hpname ▸ List.mem_map_of_mem Prod.fst hp')
      refine ih _ hnd.2 p hp' hpname ?_
      rw [lookupKey_applyEntry_ne fval acc q name hqname]
      exact hacc

end Extraction

/-- C10: for every configured selector name (resp. regex name), `Extract` maps
the name to the single matched string when exactly one match is found, to the
list of matches when more than one is found, and omits the name entirely when
zero matches are found or (for regex names) the pattern fails to compile.
The names within each map are unique (Go map keys) and a name is either a
selector name or a regex name, not both. -/
theorem extract_maps_names_by_match_count
    (selectors regexes : List (String × String))
    (selM : String → List String) (regOk : String → Bool)
    (regM : String → List String) :
    (∀ name sel, (selectors.map Prod.fst).Nodup → (name, sel) ∈ selectors →
       name ∉ regexes.map Prod.fst →
       Extraction.lookupKey name
           (Extraction.extractData selectors regexes selM regOk regM) =
         Extraction.matchesValue (selM sel)) ∧
    (∀ name pat, (regexes.map Prod.fst).Nodup → (name, pat) ∈ regexes →
       name ∉ selectors.map Prod.fst →
       Extraction.lookupKey name
           (Extraction.extractData selectors regexes selM regOk regM) =
         if regOk pat then Extraction.matchesValue (regM pat) else none) := by
  constructor
  · intro name sel hnd hmem hnot
    unfold Extraction.extractData
    rw [Extraction.lookupKey_foldl_notmem _ regexes name _ hnot]
    exact Extraction.lookupKey_foldl_mem _ selectors name [] hnd (name, sel) hmem rfl rfl
  · intro name pat hnd hmem hnot
    unfold Extraction.extractData
    refine (Extraction.lookupKey_foldl_mem _ regexes name _ hnd (name, pat) hmem rfl ?_).trans rfl
    rw [Extraction.lookupKey_foldl_notmem _ selectors name [] hnot]
    rfl

/-- Witness for C10: concrete extraction where `title` matches once (single
string), `heading` matches nothing (omitted), `year` matches twice (list) and
`bad` fails to compile (omitted). -/
theorem extract_maps_names_by_match_count_witness :
    (Fixtures.demoSelectors.map Prod.fst).Nodup ∧
    Extraction.lookupKey "title"
        (Extraction.extractData Fixtures.demoSelectors Fixtures.demoRegexes
          Fixtures.demoSelM Fixtures.demoRegOk Fixtures.demoRegM) =
      some (.one "My Title") ∧
    Extraction.lookupKey "heading"
        (Extraction.extractData Fixtures.demoSelectors Fixtures.demoRegexes
          Fixtures.demoSelM Fixtures.demoRegOk Fixtures.demoRegM) = none ∧
    Extraction.lookupKey "year"
        (Extraction.extractData Fixtures.demoSelectors Fixtures.demoRegexes
          Fixtures.demoSelM Fixtures.demoRegOk Fixtures.demoRegM) =
      some (.many ["1999", "2024"]) ∧
    Extraction.lookupKey "bad"
        (Extraction.extractData Fixtures.demoSelectors Fixtures.demoRegexes
          Fixtures.demoSelM Fixtures.demoRegOk Fixtures.demoRegM) = none := by
  have h := extract_maps_names_by_match_count Fixtures.demoSelectors
    Fixtures.demoRegexes Fixtures.demoSelM Fixtures.demoRegOk Fixtures.demoRegM
  refine ⟨by decide, ?_, ?_, ?_, ?_⟩
  · rw [h.1 "title" "title" (by decide) (by decide) (by decide)]; rfl
  · rw [h.1 "heading" "h1" (by decide) (by decide) (by decide)]; rfl
  · rw [h.2 "year" "[0-9]+" (by decide) (by decide) (by decide)]; rfl
  · rw [h.2 "bad" "(" (by decide) (by decide) (by decide)]; rfl

namespace Worker

theorem busyList_append (a b : List WStatus) :
    busyList (a ++ b) = busyList a ++ busyList b := by
  simp [busyList, List.filterMap_append]

theorem busyList_cons_ready (l : List WStatus) :
    busyList (WStatus.ready :: l) = busyList l := rfl

theorem busyList_cons_busy (u : String) (l : List WStatus) :
    busyList (WStatus.busy u :: l) = u :: busyList l := rfl

theorem busyList_cons_exited (l : List WStatus) :
    busyList (WStatus.exited :: l) = busyList l := rfl

theorem busyList_nil_of_exited :
    ∀ ws : List WStatus, (∀ w ∈ ws, w = WStatus.exited) → busyList ws = [] := by
  intro ws h
  induction ws with
  | nil => rfl
  | cons w l ih =>
    have hw := h w (List.mem_cons_self w l)
    subst hw
    rw [busyList_cons_exited]
    exact ih fun x hx => h x (List.mem_cons_of_mem _ hx)

theorem busyList_replicate_ready (W : Nat) :
    busyList (List.replicate W WStatus.ready) = [] := by
  induction W with
  | zero => rfl
  | succ n ih => rw [List.replicate_succ, busyList_cons_ready]; exact ih

theorem inv_init {R : Type} (f : String → R) (urls : List String) (W : Nat) :
    Inv f urls W (initState R urls W) := by
  refine ⟨⟨[], rfl, ?_⟩, ?_, ?_, ?_⟩
  · simp [initState, busyList_replicate_ready]
  · intro h
    simp only [initState] at h
    exact absurd (List.eq_of_mem_replicate h) (by simp)
  · intro h
    simp [initState] at h
  · simp [initState]

theorem inv_step {R : Type} (f : String → R) (urls : List String) (W : Nat)
    {s t : PoolState R} (hstep : Step f s t) (hs : Inv f urls W s) :
    Inv f urls W t := by
  obtain ⟨⟨processed, hres, hms⟩, hexit, hclosed, hlen⟩ := hs
  cases hstep with
  | pull u rest l₁ l₂ res c =>
    refine ⟨⟨processed, hres, ?_⟩, ?_, ?_, ?_⟩
    · rw [hms]
      simp only [busyList_append, busyList_cons_ready, busyList_cons_busy]
      simp only [← Multiset.coe_add, ← Multiset.cons_coe, ← Multiset.singleton_add]
      abel
    · intro hw
      have hw' : WStatus.exited ∈ l₁ ++ WStatus.ready :: l₂ := by
        rcases List.mem_append.mp hw with h1 | h2
        · exact List.mem_append_left _ h1
        · rcases List.mem_cons.mp h2 with h3 | h4
          · exact absurd h3 (by simp)
          · exact List.mem_append_right _ (List.mem_cons_of_mem _ h4)
      exact absurd (hexit hw') (List.cons_ne_nil u rest)
    · intro hc
      have h2 := hclosed hc WStatus.ready
        (List.mem_append_right _ (List.mem_cons_self _ _))
      exact absurd h2 (by simp)
    · simpa using hlen
  | emit u jobs l₁ l₂ res c =>
    refine ⟨⟨processed ++ [u], ?_, ?_⟩, ?_, ?_, ?_⟩
    · rw [List.map_append, ← hres]
      rfl
    · rw [hms]
      simp only [busyList_append, busyList_cons_ready, busyList_cons_busy]
      simp only [← Multiset.coe_add, ← Multiset.cons_coe, ← Multiset.singleton_add]
      abel
    · intro hw
      have hw' : WStatus.exited ∈ l₁ ++ WStatus.busy u :: l₂ := by
        rcases List.mem_append.mp hw with h1 | h2
        · exact List.mem_append_left _ h1
        · rcases List.mem_cons.mp h2 with h3 | h4
          · exact absurd h3 (by simp)
          · exact List.mem_append_right _ (List.mem_cons_of_mem _ h4)
      exact hexit hw'
    · intro hc
      have h2 := hclosed hc (WStatus.busy u)
        (List.mem_append_right _ (List.mem_cons_self _ _))
      exact absurd h2 (by simp)
    · simpa using hlen
  | exit l₁ l₂ res c =>
    refine ⟨⟨processed, hres, ?_⟩, ?_, ?_, ?_⟩
    · rw [hms]
      simp only [busyList_append, busyList_cons_ready, busyList_cons_exited]
    · intro _
      rfl
    · intro hc
      have h2 := hclosed hc WStatus.ready
        (List.mem_append_right _ (List.mem_cons_self _ _))
      exact absurd h2 (by simp)
    · simpa using hlen
  | close jobs ws res hall =>
    exact ⟨⟨processed, hres, hms⟩, hexit, fun _ => hall, hlen⟩

theorem inv_reachable {R : Type} (f : String → R) (urls : List String) (W : Nat)
    (s : PoolState R)
    (h : Relation.ReflTransGen (Step f) (initState R urls W) s) :
    Inv f urls W s := by
  induction h with
  | refl => exact inv_init f urls W
  | tail _ hbc ih => exact inv_step f urls W hbc ih

theorem no_step_of_sealed {R : Type} (f : String → R) (s t : PoolState R)
    (hw : ∀ w ∈ s.workers, w = WStatus.exited) (hc : s.closed = true) :
    ¬ Step f s t := by
  intro h
  cases h with
  | pull u rest l₁ l₂ res c =>
    have h2 := hw WStatus.ready (List.mem_append_right _ (List.mem_cons_self _ _))
    exact absurd h2 (by simp)
  | emit u jobs l₁ l₂ res c =>
    have h2 := hw (WStatus.busy u) (List.mem_append_right _ (List.mem_cons_self _ _))
    exact absurd h2 (by simp)
  | exit l₁ l₂ res c =>
    have h2 := hw WStatus.ready (List.mem_append_right _ (List.mem_cons_self _ _))
    exact absurd h2 (by simp)
  | close jobs ws res hall =>
    simp at hc

theorem mem_swap_middle {α : Type} (a b x : α) (l₁ l₂ : List α) (hne : x ≠ b)
    (hx : x ∈ l₁ ++ b :: l₂) : x ∈ l₁ ++ a :: l₂ := by
  rcases List.mem_append.mp hx with h | h
  · exact List.mem_append_left _ h
  · rcases List.mem_cons.mp h with h | h
    · exact absurd h hne
    · exact List.mem_append_right _ (List.mem_cons_of_mem _ h)

theorem ginv_init {R : Type} (urls : List String) (W : Nat) (_hW : 1 ≤ W)
    (hk : urls ≠ []) : GInv W (initGState R urls W) := by
  refine ⟨rfl, rfl, rfl, rfl, ?_, Or.inl hk, ?_, ?_⟩
  · intro u hu
    exact absurd (List.eq_of_mem_replicate hu) (by simp)
  · intro h
    exact absurd (List.eq_of_mem_replicate h) (by simp)
  · simp [initGState]

theorem ginv_step {R : Type} (f : String → R) (W : Nat) (hW : 1 ≤ W)
    {s t : GPoolState R} (hstep : GStep f s t) (hs : GInv W s) : GInv W t := by
  obtain ⟨hst, hbuf, hres, hcl, hbusy, hdisj, hexit, hlen⟩ := hs
  cases hstep with
  | tick jobs ws res c b => exact absurd hst (by simp)
  | stop jobs ws res c b => exact absurd hst (by simp)
  | pull u rest l₁ l₂ res c st b =>
    refine ⟨hst, hbuf, hres, hcl, ?_, ?_, ?_, ?_⟩
    · intro v hv
      exact hbusy v (mem_swap_middle GWStatus.ready (GWStatus.gated u)
        (GWStatus.busy v) l₁ l₂ (by simp) hv)
    · exact Or.inr ⟨u, List.mem_append_right _ (List.mem_cons_self _ _)⟩
    · intro he
      have he' : GWStatus.exited ∈ l₁ ++ GWStatus.ready :: l₂ :=
        mem_swap_middle GWStatus.ready (GWStatus.gated u) GWStatus.exited l₁ l₂
          (by simp) he
      exact absurd (hexit he') (List.cons_ne_nil u rest)
    · simpa using hlen
  | acquire u jobs l₁ l₂ res c st b =>
    exact absurd hbuf (by simp)
  | emit u jobs l₁ l₂ res c st b =>
    exact absurd (List.mem_append_right l₁ (List.mem_cons_self _ _)) (hbusy u)
  | exit l₁ l₂ res c st b =>
    refine ⟨hst, hbuf, hres, hcl, ?_, ?_, fun _ => rfl, ?_⟩
    · intro v hv
      exact hbusy v (mem_swap_middle GWStatus.ready GWStatus.exited
        (GWStatus.busy v) l₁ l₂ (by simp) hv)
    · rcases hdisj with hj | ⟨v, hv⟩
      · exact absurd rfl hj
      · exact Or.inr ⟨v, mem_swap_middle GWStatus.exited GWStatus.ready
          (GWStatus.gated v) l₁ l₂ (by simp) hv⟩
    · simpa using hlen
  | close jobs ws res st b hall =>
    have hwne : ws ≠ [] := by
      intro h
      rw [h] at hlen
      simp at hlen
      omega
    obtain ⟨w0, hw0⟩ : ∃ w, w ∈ ws := List.exists_mem_of_ne_nil ws hwne
    have he : GWStatus.exited ∈ ws := by
      rw [← hall w0 hw0]
      exact hw0
    have hj : jobs = [] := hexit he
    rcases hdisj with hj' | ⟨v, hv⟩
    · exact absurd hj hj'
    · exact absurd (hall _ hv) (by simp)

theorem ginv_reachable {R : Type} (f : String → R) (urls : List String)
    (W : Nat) (hW : 1 ≤ W) (hk : urls ≠ []) (s : GPoolState R)
    (h : Relation.ReflTransGen (GStep f) (initGState R urls W) s) :
    GInv W s := by
  induction h with
  | refl => exact ginv_init urls W hW hk
  | tail _ hbc ih => exact ginv_step f W hW hbc ih

end Worker

/-- C1 (code bug): `Start` (part_001 lines 39-41) creates the rate-limiter
ticker and immediately `defer`s `rateLimiter.Stop()`; since `Start` only
spawns the workers and the closer goroutine and then returns at once — long
before the first tick of the positive rate interval fires — the shared ticker
is stopped with no tick ever delivered.  Each worker pulls its first URL and
then blocks forever at `<-rateLimiter.C` (part_001 line 62): in the gated
pool model, every state reachable from the post-`Start` state with at least
one submitted job still has an empty Results stream and an open Results
channel.  The engine therefore emits zero Results instead of one per Job,
contradicting the claim (which is the spec's evident intent): the code is
wedged by its own premature `Stop`. -/
theorem pool_rate_gate_wedged {R : Type} (f : String → R) (urls : List String)
    (W : Nat) (hW : 1 ≤ W) (hk : urls ≠ []) (s : Worker.GPoolState R)
    (hreach : Relation.ReflTransGen (Worker.GStep f) (Worker.initGState R urls W) s) :
    s.results = [] ∧ s.closed = false := by
  obtain ⟨_, _, hres, hcl, _, _, _, _⟩ :=
    Worker.ginv_reachable f urls W hW hk s hreach
  exact ⟨hres, hcl⟩

/-- The first worker pulls the only job and reaches the stopped gate. -/
theorem gatedDemo_reach :
    Relation.ReflTransGen (Worker.GStep Fixtures.demoF)
      (Worker.initGState String ["a"] 3) Fixtures.gatedDemo :=
  Relation.ReflTransGen.head
    (Worker.GStep.pull "a" [] []
      [Worker.GWStatus.ready, Worker.GWStatus.ready] [] false true 0)
    Relation.ReflTransGen.refl

/-- Witness for the C1 code-bug theorem: with one job and three workers, the
state in which the first worker sits at the stopped gate is reachable, and it
has no Results and an open channel. -/
theorem pool_rate_gate_wedged_witness :
    (1 : Nat) ≤ 3 ∧ (["a"] : List String) ≠ [] ∧
    Fixtures.gatedDemo.results = [] ∧ Fixtures.gatedDemo.closed = false := by
  have h := pool_rate_gate_wedged Fixtures.demoF ["a"] 3 (by omega) (by simp)
    Fixtures.gatedDemo gatedDemo_reach
  exact ⟨by omega, by simp, h.1, h.2⟩

/-- C9: the Results channel is sealed exactly once, and only after every
worker has exited: in every reachable state in which the channel is closed,
all workers have exited, and the state admits no further transition at all —
no Result is sent after the close, no second close happens, and the result
stream's contents never change (so draining it yields no duplicates). -/
theorem results_sealed_once_after_join {R : Type} (f : String → R)
    (urls : List String) (W : Nat) (s : Worker.PoolState R)
    (hreach : Relation.ReflTransGen (Worker.Step f) (Worker.initState R urls W) s)
    (hclosed : s.closed = true) :
    (∀ w ∈ s.workers, w = Worker.WStatus.exited) ∧
    ∀ t, Relation.ReflTransGen (Worker.Step f) s t → t = s := by
  obtain ⟨_, _, hcl, _⟩ := Worker.inv_reachable f urls W s hreach
  have hall := hcl hclosed
  refine ⟨hall, ?_⟩
  intro t ht
  induction ht with
  | refl => rfl
  | tail _ hbc ih =>
    rw [ih] at hbc
    exact absurd hbc (Worker.no_step_of_sealed f s _ hall hclosed)

/-- A complete concrete run of the pool: two jobs, one worker; the job "a"
fails permanently and the job "b" succeeds; the worker processes both, exits,
and the closer seals the channel. -/
theorem demo_trace :
    Relation.ReflTransGen (Worker.Step Fixtures.demoF)
      (Worker.initState String ["a", "b"] 1) Fixtures.demoFinal := by
  refine Relation.ReflTransGen.head (Worker.Step.pull "a" ["b"] [] [] [] false) ?_
  refine Relation.ReflTransGen.head (Worker.Step.emit "a" ["b"] [] [] [] false) ?_
  refine Relation.ReflTransGen.head
    (Worker.Step.pull "b" [] [] [] [Fixtures.demoF "a"] false) ?_
  refine Relation.ReflTransGen.head
    (Worker.Step.emit "b" [] [] [] [Fixtures.demoF "a"] false) ?_
  refine Relation.ReflTransGen.head
    (Worker.Step.exit [] [] [Fixtures.demoF "a", Fixtures.demoF "b"] false) ?_
  refine Relation.ReflTransGen.head
    (Worker.Step.close [] [Worker.WStatus.exited]
      [Fixtures.demoF "a", Fixtures.demoF "b"] ?_) Relation.ReflTransGen.refl
  intro w hw
  exact List.mem_singleton.mp hw

/-- Witness for C9: the demo run's final state is closed, all workers have
exited, and no continuation changes the state. -/
theorem results_sealed_once_after_join_witness :
    Fixtures.demoFinal.closed = true ∧
    (∀ w ∈ Fixtures.demoFinal.workers, w = Worker.WStatus.exited) ∧
    ∀ t, Relation.ReflTransGen (Worker.Step Fixtures.demoF) Fixtures.demoFinal t →
      t = Fixtures.demoFinal := by
  have h := results_sealed_once_after_join Fixtures.demoF ["a", "b"] 1
    Fixtures.demoFinal demo_trace rfl
  exact ⟨rfl, h.1, h.2⟩
